import Mathlib

/-!
Shallow embedding of the Cross-Section Generator for Fusion 360
(`CrossSectionTool.py`), restricted to the logic of the execute handler
`CrossSectionExecuteHandler.notify`: the offset-distribution computation
(source lines 113-127) and the plane-creation loop with its fallback
path (source lines 130-179), together with the pre-loop validation
(source lines 92-100).

Python floats are modelled exactly by `ℚ`; the host CAD application
(construction-plane creation and suppression, which the source wraps in
`try`/`except`) is modelled by an oracle `Host` saying, for each loop
index, which of the host calls succeed.  Renaming a plane is modelled as
infallible, as the source never guards it separately and the spec
declares `renamePlane` infallible post-creation.
-/

namespace CrossSection

/-- The two entries of the `distribution` dropdown (source lines 221-224). -/
inductive DistributionMode
  | Count
  | Distance
deriving DecidableEq, Repr

/-- Python `int(q)` for a float `q`: truncation toward zero, as applied to
`quantityInput.value` on source line 80.  `Int.tdiv` truncates toward zero. -/
def pyInt (q : ℚ) : ℤ := Int.tdiv q.num (q.den : ℤ)

/-- The `Count` branch of the offset computation, source lines 119-123, with
the local constants `startOffset`/`endOffset` (hardcoded to -10.0 and 10.0 on
lines 116-117) abstracted as parameters:

    if planeCount == 1:
        offsets = [0.0]
    else:
        offsetRange = endOffset - startOffset
        offsets = [startOffset + (i * offsetRange / (planeCount - 1))
                   for i in range(planeCount)]
-/
def countOffsets (startOffset endOffset : ℚ) (planeCount : ℕ) : List ℚ :=
  if planeCount = 1 then [0]
  else
    let offsetRange := endOffset - startOffset
    (List.range planeCount).map
      (fun i : ℕ => startOffset + ((i : ℚ) * offsetRange / ((planeCount : ℚ) - 1)))

/-- The `Distance` branch, source lines 124-127: the spacing input is ignored
and a hardcoded 6-element sequence is produced
(`offsets = [-10.0 + i * 3.33 for i in range(planeCount)]` with
`planeCount = 6`; `3.33 = 333/100`). -/
def distanceOffsets : List ℚ :=
  (List.range 6).map (fun i : ℕ => -10 + (i : ℚ) * (333 / 100))

/-- The offset computation `computeOffsets`, source lines 113-127: dispatch
on the distribution mode.  `quantity` is the raw float of the quantity input; in `Count` mode the
source first applies `int(...)` (line 80) and the span is hardcoded to
(-10.0, 10.0); in `Distance` mode the quantity (a spacing) is never read. -/
def computeOffsets (mode : DistributionMode) (quantity : ℚ) : List ℚ :=
  match mode with
  | .Count => countOffsets (-10) 10 (pyInt quantity).toNat
  | .Distance => distanceOffsets

/-- Zero-pad a numeral to width 3, as Python `f"{n:03d}"` does for `n ≥ 0`. -/
def pad3 (n : ℕ) : String :=
  let s := toString n
  if s.length < 3 then String.mk (List.replicate (3 - s.length) '0') ++ s
  else s

/-- The name assigned to the `n`-th created plane (1-based):
`f"Section_Plane_{n:03d}"`, source lines 150 and 169. -/
def planeName (n : ℕ) : String := "Section_Plane_" ++ pad3 n

/-- The normalized distance for the primary creation method, source lines
141-143:

    normalizedDistance = (offset - offsets[0]) / (offsets[-1] - offsets[0])
                         if len(offsets) > 1 else 0.5
    normalizedDistance = max(0.0, min(1.0, normalizedDistance))
-/
def normalizedDistance (offsets : List ℚ) (offset : ℚ) : ℚ :=
  let d := if 1 < offsets.length
    then (offset - offsets.headD 0) / (offsets.getLastD 0 - offsets.headD 0)
    else 1 / 2
  max 0 (min 1 d)

/-- How a plane was constructed: `setByDistanceOnPath` along the selected
axis (source line 146), or the fallback `setByOffset` from the root
component's `xYConstructionPlane` (source lines 164-166). -/
inductive Method
  | distanceOnPath
  | xyPlaneOffset
deriving DecidableEq, Repr

/-- A created construction plane as the loop leaves it: its assigned name,
the method that created it, the scalar handed to the host (the normalized
`t` for `distanceOnPath`, the raw offset for `xyPlaneOffset`), and its final
suppression state. -/
structure Plane where
  name : String
  method : Method
  param : ℚ
  isSuppressed : Bool
deriving DecidableEq, Repr

/-- A host call attempted by the loop, recorded with the 0-based loop index
and the scalar passed: a `setByDistanceOnPath` attempt with its normalized
`t`, or a fallback `setByOffset`-from-XY attempt with its raw offset. -/
inductive Event
  | pathAttempt (i : ℕ) (t : ℚ)
  | xyAttempt (i : ℕ) (offset : ℚ)
deriving DecidableEq, Repr

/-- The loop index an event was recorded at. -/
def Event.idx : Event → ℕ
  | .pathAttempt i _ => i
  | .xyAttempt i _ => i

/-- Whether an event is the fallback (`setByOffset` from XY) attempt of loop
index `i`. -/
def Event.isXYAt (i : ℕ) : Event → Bool
  | .pathAttempt _ _ => false
  | .xyAttempt j _ => j == i

/-- Oracle for the host calls of one loop iteration that the source wraps in
`try`/`except`: whether `constructionPlanes.add` succeeds for the primary
`setByDistanceOnPath` input and for the fallback `setByOffset` input, and
whether the `planeFeature.isSuppressed = True` assignment succeeds on the
plane each branch created. -/
structure HostStep where
  primaryCreateOk : Bool
  primarySuppressOk : Bool
  fallbackCreateOk : Bool
  fallbackSuppressOk : Bool
deriving DecidableEq, Repr

/-- Host behaviour for a whole run: one `HostStep` per loop index. -/
def Host : Type := ℕ → HostStep

/-- The fallback branch of one loop iteration, source lines 160-177: build a
`setByOffset` input from the XY construction plane with the RAW offset, add
it, name it, append it, then suppress it if requested.  Returns the planes
appended, the host calls attempted, and whether the loop continues (`False`
models the `break` on line 177, reached when `constructionPlanes.add` fails
or when the suppression assignment on line 173 raises after the plane was
already appended on line 170). -/
def runFallback (h : HostStep) (idx : ℕ) (offset : ℚ) (suppress : Bool) :
    List Plane × List Event × Bool :=
  if h.fallbackCreateOk then
    let p : Plane :=
      { name := planeName (idx + 1), method := .xyPlaneOffset, param := offset,
        isSuppressed := suppress && h.fallbackSuppressOk }
    ([p], [.xyAttempt idx offset], !(suppress && !h.fallbackSuppressOk))
  else
    ([], [.xyAttempt idx offset], false)

/-- One loop iteration, source lines 134-177: try `setByDistanceOnPath` with
the normalized `t`; on success the plane is named and appended (lines
149-152) BEFORE the suppression assignment (lines 154-155), so if that
assignment raises, control falls into the `except` branch and the fallback
runs for the same offset even though the primary plane is already in the
list.  On a primary creation failure only the fallback runs. -/
def runStep (h : HostStep) (idx : ℕ) (offset t : ℚ) (suppress : Bool) :
    List Plane × List Event × Bool :=
  if h.primaryCreateOk then
    let p : Plane :=
      { name := planeName (idx + 1), method := .distanceOnPath, param := t,
        isSuppressed := suppress && h.primarySuppressOk }
    if suppress && !h.primarySuppressOk then
      let r := runFallback h idx offset suppress
      (p :: r.1, .pathAttempt idx t :: r.2.1, r.2.2)
    else
      ([p], [.pathAttempt idx t], true)
  else
    let r := runFallback h idx offset suppress
    (r.1, .pathAttempt idx t :: r.2.1, r.2.2)

/-- Whether one loop iteration lets the loop continue (i.e. does not hit the
`break` on source line 177).  The continuation bit of `runStep` depends only
on the oracle and the suppression flag, not on the index or the offsets. -/
def stepCont (h : HostStep) (suppress : Bool) : Bool :=
  (runStep h 0 0 0 suppress).2.2

/-- The plane-creation loop, source lines 134-177, iterating over the tail
`rest` of the offset list with `idx` the current 0-based index; `offsets` is
the full list, needed because the normalized distance reads `offsets[0]` and
`offsets[-1]`.  Returns the created planes (in creation order) and the trace
of host creation calls attempted. -/
def runLoop (host : Host) (offsets : List ℚ) (suppress : Bool) :
    ℕ → List ℚ → List Plane × List Event
  | _, [] => ([], [])
  | idx, offset :: rest =>
    let t := normalizedDistance offsets offset
    let r := runStep (host idx) idx offset t suppress
    if r.2.2 then
      let r2 := runLoop host offsets suppress (idx + 1) rest
      (r.1 ++ r2.1, r.2.1 ++ r2.2)
    else
      (r.1, r.2.1)

/-- The whole plane-creation phase, source lines 130-179: run the loop over
all offsets from index 0. -/
def createSectionPlanes (host : Host) (offsets : List ℚ) (suppress : Bool) :
    List Plane × List Event :=
  runLoop host offsets suppress 0 offsets

/-- The inputs of one invocation of `CrossSectionExecuteHandler.notify`
(source lines 63-100): how many bodies are selected, whether an axis is
selected, the dropdown/checkbox/spinner values, whether
`adsk.fusion.Design.cast(app.activeProduct)` yields a design, and the host
oracle for the creation loop. -/
structure ExecEnv where
  bodiesCount : ℕ
  hasAxis : Bool
  hasDesign : Bool
  mode : DistributionMode
  suppress : Bool
  quantity : ℚ
  host : Host

/-- The parameter summary shown unconditionally by the messageBox on source
line 90 (built on lines 83-88); its axis line shows the entity token when an
axis is selected and the literal text None otherwise. -/
def paramSummary (env : ExecEnv) : String :=
  "Cross-Section Generation Parameters: Bodies: " ++ toString env.bodiesCount
    ++ " selected, Axis: " ++ (if env.hasAxis then "token" else "None")
    ++ ", Distribution: "
    ++ (match env.mode with | .Count => "Count" | .Distance => "Distance")
    ++ ", Suppression: " ++ toString env.suppress
    ++ ", Quantity: " ++ toString env.quantity

/-- The final messageBox of a completed run, source line 179. -/
def successMessage (created : ℕ) : String :=
  "Successfully created " ++ toString created
    ++ " construction planes in root component"

/-- The execute handler `CrossSectionExecuteHandler.notify`, source lines
63-179: show the
parameter summary (line 90); return if no body or no axis is selected (lines
92-93); return with a messageBox if there is no active design (lines
98-100); otherwise compute the offsets and run the plane-creation loop,
reporting the created count (line 179).  Returns the messageBox texts shown
at the handler level, the created planes, and the host-call trace.  -/
def executeNotify (env : ExecEnv) : List String × List Plane × List Event :=
  let m0 := paramSummary env
  if env.bodiesCount = 0 || !env.hasAxis then
    ([m0], [], [])
  else if !env.hasDesign then
    ([m0, "No active Fusion design"], [], [])
  else
    let offsets := computeOffsets env.mode env.quantity
    let r := createSectionPlanes env.host offsets env.suppress
    ([m0, successMessage r.1.length], r.1, r.2)

/-! Concrete host oracles used to exhibit runs of the loop. -/

/-- A host on which every call succeeds. -/
def hostAllOk : Host := fun _ => ⟨true, true, true, true⟩

/-- A host on which both creation methods fail at loop index 1 and
everything else succeeds. -/
def hostBothFailAt1 : Host := fun i =>
  if i = 1 then ⟨false, true, false, true⟩ else ⟨true, true, true, true⟩

/-- A host on which the primary creation method fails at loop index 0 (the
fallback succeeds there) and everything else succeeds. -/
def hostPrimaryFailAt0 : Host := fun i =>
  if i = 0 then ⟨false, true, true, true⟩ else ⟨true, true, true, true⟩

/-- A host on which, at loop index 0, the primary creation succeeds but the
suppression assignment on the primary-created plane raises, while the
fallback creation succeeds; everything else succeeds. -/
def hostSuppressFailAt0 : Host := fun i =>
  if i = 0 then ⟨true, false, true, true⟩ else ⟨true, true, true, true⟩

/-- An execution environment with no body and no axis selected. -/
def envNoSelection : ExecEnv :=
  { bodiesCount := 0, hasAxis := false, hasDesign := true, mode := .Count,
    suppress := false, quantity := 6, host := hostAllOk }

/-- An execution environment with a valid selection but no active design. -/
def envNoDesign : ExecEnv :=
  { bodiesCount := 2, hasAxis := true, hasDesign := false, mode := .Count,
    suppress := false, quantity := 6, host := hostAllOk }

/-! Helper lemmas about the loop. -/

theorem runStep_cont_eq (h : HostStep) (idx : ℕ) (offset t : ℚ) (suppress : Bool) :
    (runStep h idx offset t suppress).2.2 = stepCont h suppress := by
  obtain ⟨pc, ps, fc, fs⟩ := h
  cases pc <;> cases ps <;> cases fc <;> cases fs <;> cases suppress <;> rfl

theorem runLoop_cons_cont (host : Host) (offsets : List ℚ) (suppress : Bool)
    (idx : ℕ) (offset : ℚ) (rest : List ℚ)
    (h : stepCont (host idx) suppress = true) :
    runLoop host offsets suppress idx (offset :: rest) =
      ((runStep (host idx) idx offset (normalizedDistance offsets offset) suppress).1 ++
         (runLoop host offsets suppress (idx + 1) rest).1,
       (runStep (host idx) idx offset (normalizedDistance offsets offset) suppress).2.1 ++
         (runLoop host offsets suppress (idx + 1) rest).2) := by
  simp only [runLoop, runStep_cont_eq, h, if_true]

theorem runLoop_cons_break (host : Host) (offsets : List ℚ) (suppress : Bool)
    (idx : ℕ) (offset : ℚ) (rest : List ℚ)
    (h : stepCont (host idx) suppress = false) :
    runLoop host offsets suppress idx (offset :: rest) =
      ((runStep (host idx) idx offset (normalizedDistance offsets offset) suppress).1,
       (runStep (host idx) idx offset (normalizedDistance offsets offset) suppress).2.1) := by
  simp only [runLoop, runStep_cont_eq, h, if_false, Bool.false_eq_true]

theorem runLoop_append (host : Host) (offsets : List ℚ) (suppress : Bool)
    (l1 l2 : List ℚ) (idx : ℕ)
    (h : ∀ j, j < l1.length → stepCont (host (idx + j)) suppress = true) :
    runLoop host offsets suppress idx (l1 ++ l2) =
      ((runLoop host offsets suppress idx l1).1 ++
         (runLoop host offsets suppress (idx + l1.length) l2).1,
       (runLoop host offsets suppress idx l1).2 ++
         (runLoop host offsets suppress (idx + l1.length) l2).2) := by
  induction l1 generalizing idx with
  | nil => simp [runLoop]
  | cons c tl ih =>
    have h0 : stepCont (host idx) suppress = true := by
      simpa using h 0 (Nat.succ_pos _)
    have htl : ∀ j, j < tl.length → stepCont (host (idx + 1 + j)) suppress = true := by
      intro j hj
      have := h (j + 1) (by simpa using Nat.succ_lt_succ hj)
      simpa [Nat.add_assoc, Nat.add_comm 1 j] using this
    rw [List.cons_append, runLoop_cons_cont host offsets suppress idx c (tl ++ l2) h0,
      ih (idx + 1) htl, runLoop_cons_cont host offsets suppress idx c tl h0]
    simp [List.append_assoc, Nat.add_assoc, Nat.add_comm 1 tl.length]

theorem runStep_event_mem (h : HostStep) (idx : ℕ) (offset t : ℚ) (suppress : Bool) :
    ∀ e ∈ (runStep h idx offset t suppress).2.1,
      e = Event.pathAttempt idx t ∨ e = Event.xyAttempt idx offset := by
  obtain ⟨pc, ps, fc, fs⟩ := h
  cases pc <;> cases ps <;> cases fc <;> cases fs <;> cases suppress <;>
    simp [runStep, runFallback]

theorem runLoop_event_bounds (host : Host) (offsets : List ℚ) (suppress : Bool)
    (l : List ℚ) (idx : ℕ) (e : Event)
    (he : e ∈ (runLoop host offsets suppress idx l).2) :
    idx ≤ e.idx ∧ e.idx < idx + l.length := by
  induction l generalizing idx with
  | nil => simp [runLoop] at he
  | cons c tl ih =>
    have hstep : ∀ e2, e2 ∈ (runStep (host idx) idx c
        (normalizedDistance offsets c) suppress).2.1 →
        idx ≤ Event.idx e2 ∧ Event.idx e2 < idx + (c :: tl).length := by
      intro e2 he2
      rcases runStep_event_mem _ _ _ _ _ e2 he2 with h2 | h2 <;>
        · subst h2; simp [Event.idx]
    cases hc : stepCont (host idx) suppress with
    | true =>
      rw [runLoop_cons_cont host offsets suppress idx c tl hc] at he
      rcases List.mem_append.mp he with h1 | h1
      · exact hstep e h1
      · have := ih (idx + 1) h1
        constructor <;> [omega; (simp only [List.length_cons]; omega)]
    | false =>
      rw [runLoop_cons_break host offsets suppress idx c tl hc] at he
      exact hstep e he

theorem runLoop_event_shape (host : Host) (offsets : List ℚ) (suppress : Bool)
    (l : List ℚ) (idx : ℕ) (hd : offsets.drop idx = l) :
    ∀ e ∈ (runLoop host offsets suppress idx l).2,
      e = Event.pathAttempt e.idx
            (normalizedDistance offsets (offsets.getD e.idx 0)) ∨
      e = Event.xyAttempt e.idx (offsets.getD e.idx 0) := by
  induction l generalizing idx with
  | nil => simp [runLoop]
  | cons c tl ih =>
    have hidx : idx < offsets.length := by
      have := congrArg List.length hd
      simp only [List.length_drop, List.length_cons] at this
      omega
    have hsplit : offsets.drop idx = offsets[idx] :: offsets.drop (idx + 1) :=
      List.drop_eq_getElem_cons hidx
    rw [hd] at hsplit
    obtain ⟨hc0, htl0⟩ := List.cons_eq_cons.mp hsplit
    have hc : offsets.getD idx 0 = c := by
      rw [List.getD_eq_getElem offsets 0 hidx]; exact hc0.symm
    have htl : offsets.drop (idx + 1) = tl := htl0.symm
    intro e he
    have hstep : ∀ e2, e2 ∈ (runStep (host idx) idx c
        (normalizedDistance offsets c) suppress).2.1 →
        e2 = Event.pathAttempt e2.idx
              (normalizedDistance offsets (offsets.getD e2.idx 0)) ∨
        e2 = Event.xyAttempt e2.idx (offsets.getD e2.idx 0) := by
      intro e2 he2
      rcases runStep_event_mem _ _ _ _ _ e2 he2 with h2 | h2
      · subst h2; left; simp only [Event.idx, hc]
      · subst h2; right; simp only [Event.idx, hc]
    cases hcont : stepCont (host idx) suppress with
    | true =>
      rw [runLoop_cons_cont host offsets suppress idx c tl hcont] at he
      rcases List.mem_append.mp he with h1 | h1
      · exact hstep e h1
      · exact ih (idx + 1) htl e h1
    | false =>
      rw [runLoop_cons_break host offsets suppress idx c tl hcont] at he
      exact hstep e he

theorem runStep_plane_mem (h : HostStep) (idx : ℕ) (offset t : ℚ) (suppress : Bool) :
    ∀ p ∈ (runStep h idx offset t suppress).1,
      p = ⟨planeName (idx + 1), .distanceOnPath, t,
            suppress && h.primarySuppressOk⟩ ∨
      p = ⟨planeName (idx + 1), .xyPlaneOffset, offset,
            suppress && h.fallbackSuppressOk⟩ := by
  obtain ⟨pc, ps, fc, fs⟩ := h
  cases pc <;> cases ps <;> cases fc <;> cases fs <;> cases suppress <;>
    simp [runStep, runFallback]

theorem runLoop_plane_mem (host : Host) (offsets : List ℚ) (suppress : Bool)
    (l : List ℚ) (idx : ℕ) (p : Plane)
    (hp : p ∈ (runLoop host offsets suppress idx l).1) :
    ∃ j o, p ∈ (runStep (host j) j o (normalizedDistance offsets o) suppress).1 := by
  induction l generalizing idx with
  | nil => simp [runLoop] at hp
  | cons c tl ih =>
    cases hcont : stepCont (host idx) suppress with
    | true =>
      rw [runLoop_cons_cont host offsets suppress idx c tl hcont] at hp
      rcases List.mem_append.mp hp with h1 | h1
      · exact ⟨idx, c, h1⟩
      · exact ih (idx + 1) h1
    | false =>
      rw [runLoop_cons_break host offsets suppress idx c tl hcont] at hp
      exact ⟨idx, c, hp⟩

theorem runLoop_names (host : Host) (offsets : List ℚ) (suppress : Bool)
    (hs : ∀ i, (host i).primarySuppressOk = true)
    (l : List ℚ) (idx : ℕ) :
    (runLoop host offsets suppress idx l).1.map Plane.name =
      (List.range' (idx + 1)
        (runLoop host offsets suppress idx l).1.length).map planeName := by
  induction l generalizing idx with
  | nil => simp [runLoop]
  | cons c tl ih =>
    rcases hh : host idx with ⟨pc, ps, fc, fs⟩
    have hps := hs idx
    rw [hh] at hps
    subst hps
    cases pc <;> cases fc <;> cases fs <;> cases suppress <;>
      first
      | (rw [runLoop_cons_break host offsets _ idx c tl (by rw [stepCont, hh]; rfl)]
         simp [runStep, runFallback, hh, List.range'])
      | (rw [runLoop_cons_cont host offsets _ idx c tl (by rw [stepCont, hh]; rfl)]
         simp [runStep, runFallback, hh, List.range', ih (idx + 1), Nat.add_assoc])

theorem stepCont_false_of_both_fail (h : HostStep) (suppress : Bool)
    (hp : h.primaryCreateOk = false) (hf : h.fallbackCreateOk = false) :
    stepCont h suppress = false := by
  obtain ⟨pc, ps, fc, fs⟩ := h
  cases pc
  · cases fc
    · cases ps <;> cases fs <;> cases suppress <;> rfl
    · simp at hf
  · simp at hp

theorem runStep_both_fail (h : HostStep) (idx : ℕ) (offset t : ℚ) (suppress : Bool)
    (hp : h.primaryCreateOk = false) (hf : h.fallbackCreateOk = false) :
    runStep h idx offset t suppress =
      ([], [.pathAttempt idx t, .xyAttempt idx offset], false) := by
  obtain ⟨pc, ps, fc, fs⟩ := h
  cases pc
  · cases fc
    · rfl
    · simp at hf
  · simp at hp

theorem runStep_events_of_primary_fail (h : HostStep) (idx : ℕ) (offset t : ℚ)
    (suppress : Bool) (hp : h.primaryCreateOk = false) :
    (runStep h idx offset t suppress).2.1 =
      [.pathAttempt idx t, .xyAttempt idx offset] := by
  obtain ⟨pc, ps, fc, fs⟩ := h
  cases pc
  · cases fc <;> rfl
  · simp at hp

theorem runStep_of_primary_suppress_fail (h : HostStep) (idx : ℕ) (offset t : ℚ)
    (hpc : h.primaryCreateOk = true) (hps : h.primarySuppressOk = false)
    (hfc : h.fallbackCreateOk = true) :
    runStep h idx offset t true =
      ([⟨planeName (idx + 1), .distanceOnPath, t, false⟩,
        ⟨planeName (idx + 1), .xyPlaneOffset, offset, h.fallbackSuppressOk⟩],
       [.pathAttempt idx t, .xyAttempt idx offset],
       h.fallbackSuppressOk) := by
  obtain ⟨pc, ps, fc, fs⟩ := h
  cases pc
  · simp at hpc
  · cases ps
    · cases fc
      · simp at hfc
      · cases fs <;> rfl
    · simp at hps

theorem filter_isXYAt_eq_nil (i : ℕ) (tr : List Event)
    (h : ∀ e ∈ tr, Event.idx e ≠ i) : tr.filter (Event.isXYAt i) = [] := by
  rw [List.filter_eq_nil_iff]
  intro e he
  have hne := h e he
  cases e with
  | pathAttempt j t => simp [Event.isXYAt]
  | xyAttempt j o =>
    simp only [Event.idx] at hne
    simp [Event.isXYAt, hne]

theorem headD_eq_getD_zero (l : List ℚ) : l.headD 0 = l.getD 0 0 := by
  cases l <;> rfl

theorem getLastD_eq_getD_last (l : List ℚ) :
    l.getLastD 0 = l.getD (l.length - 1) 0 := by
  rw [List.getLastD_eq_getLast?, List.getLast?_eq_getElem?, List.getD_eq_getElem?_getD]

theorem countOffsets_length (s e : ℚ) (N : ℕ) (hN : N ≠ 1) :
    (countOffsets s e N).length = N := by
  simp only [countOffsets, if_neg hN, List.length_map, List.length_range]

theorem countOffsets_getD (s e : ℚ) (N i : ℕ) (hN : N ≠ 1) (hi : i < N) :
    (countOffsets s e N).getD i 0 = s + (i : ℚ) * (e - s) / ((N : ℚ) - 1) := by
  simp only [countOffsets, if_neg hN]
  have hlen : i < ((List.range N).map
      (fun i : ℕ => s + ((i : ℚ) * (e - s) / ((N : ℚ) - 1)))).length := by
    simp only [List.length_map, List.length_range]; exact hi
  rw [List.getD_eq_getElem _ _ hlen, List.getElem_map, List.getElem_range]

theorem createSectionPlanes_split (host : Host) (offsets : List ℚ)
    (suppress : Bool) (i : ℕ) (hi : i < offsets.length)
    (hbefore : ∀ j, j < i → stepCont (host j) suppress = true) :
    createSectionPlanes host offsets suppress =
      ((runLoop host offsets suppress 0 (offsets.take i)).1 ++
         (runLoop host offsets suppress i
           (offsets.getD i 0 :: offsets.drop (i + 1))).1,
       (runLoop host offsets suppress 0 (offsets.take i)).2 ++
         (runLoop host offsets suppress i
           (offsets.getD i 0 :: offsets.drop (i + 1))).2) := by
  have htake : (offsets.take i).length = i := by
    rw [List.length_take]
    omega
  have hdrop : offsets.drop i = offsets.getD i 0 :: offsets.drop (i + 1) := by
    rw [List.getD_eq_getElem offsets 0 hi]
    exact List.drop_eq_getElem_cons hi
  have happ := runLoop_append host offsets suppress (offsets.take i)
    (offsets.getD i 0 :: offsets.drop (i + 1)) 0
    (by
      intro j hj
      rw [htake] at hj
      rw [Nat.zero_add]
      exact hbefore j hj)
  rw [← hdrop, List.take_append_drop] at happ
  rw [createSectionPlanes, happ, htake, Nat.zero_add, hdrop]

/-! The claims. -/

/-- C2: if at some loop index both the primary distance-on-path creation and
the XY-offset fallback fail, the loop stops there: the created planes are
exactly those of the indices strictly before the failing one (so the
reported count is the number of planes created before the failure, and
nothing already created is removed), and no host call is attempted at any
later index. -/
theorem loop_stops_on_double_failure (host : Host) (offsets : List ℚ)
    (suppress : Bool) (i : ℕ) (hi : i < offsets.length)
    (hbefore : ∀ j, j < i → stepCont (host j) suppress = true)
    (hp : (host i).primaryCreateOk = false)
    (hf : (host i).fallbackCreateOk = false) :
    (createSectionPlanes host offsets suppress).1 =
      (runLoop host offsets suppress 0 (offsets.take i)).1 ∧
    (createSectionPlanes host offsets suppress).1.length =
      (runLoop host offsets suppress 0 (offsets.take i)).1.length ∧
    ∀ e ∈ (createSectionPlanes host offsets suppress).2, e.idx ≤ i := by
  have hsplit := createSectionPlanes_split host offsets suppress i hi hbefore
  have hcont : stepCont (host i) suppress = false :=
    stepCont_false_of_both_fail (host i) suppress hp hf
  rw [runLoop_cons_break host offsets suppress i (offsets.getD i 0)
    (offsets.drop (i + 1)) hcont,
    runStep_both_fail (host i) i (offsets.getD i 0)
      (normalizedDistance offsets (offsets.getD i 0)) suppress hp hf] at hsplit
  have hplanes : (createSectionPlanes host offsets suppress).1 =
      (runLoop host offsets suppress 0 (offsets.take i)).1 := by
    rw [hsplit]
    simp
  refine ⟨hplanes, by rw [hplanes], ?_⟩
  intro e he
  rw [hsplit] at he
  rcases List.mem_append.mp he with h1 | h1
  · have hb := runLoop_event_bounds host offsets suppress (offsets.take i) 0 e h1
    have htake : (offsets.take i).length = i := by
      rw [List.length_take]
      omega
    omega
  · simp only [List.mem_cons, List.mem_singleton, List.not_mem_nil] at h1
    rcases h1 with h1 | h1 | h1
    · subst h1; exact le_refl i
    · subst h1; exact le_refl i
    · exact absurd h1 (by simp)

/-- Witness for `loop_stops_on_double_failure`: a run over the Count-mode
offsets for quantity 3 on a host that fails both methods at index 1. -/
theorem loop_stops_on_double_failure_witness :
    1 < (computeOffsets .Count 3).length ∧
    (hostBothFailAt1 1).primaryCreateOk = false ∧
    (hostBothFailAt1 1).fallbackCreateOk = false ∧
    ((createSectionPlanes hostBothFailAt1 (computeOffsets .Count 3) false).1 =
       (runLoop hostBothFailAt1 (computeOffsets .Count 3) false 0
         ((computeOffsets .Count 3).take 1)).1 ∧
     (createSectionPlanes hostBothFailAt1
         (computeOffsets .Count 3) false).1.length =
       (runLoop hostBothFailAt1 (computeOffsets .Count 3) false 0
         ((computeOffsets .Count 3).take 1)).1.length ∧
     ∀ e ∈ (createSectionPlanes hostBothFailAt1 (computeOffsets .Count 3)
         false).2, e.idx ≤ 1) := by
  have hi : 1 < (computeOffsets .Count 3).length := by
    decide
  refine ⟨hi, rfl, rfl,
    loop_stops_on_double_failure hostBothFailAt1 (computeOffsets .Count 3)
      false 1 hi ?_ rfl rfl⟩
  intro j hj
  have hj0 : j = 0 := by omega
  subst hj0
  rfl

/-- C3: whenever the loop reaches an index whose primary distance-on-path
creation fails, the XY-offset fallback is attempted exactly once for that
index, and the attempt passes the raw (non-normalized) offset value. -/
theorem fallback_attempted_once_with_raw_offset (host : Host)
    (offsets : List ℚ) (suppress : Bool) (i : ℕ) (hi : i < offsets.length)
    (hbefore : ∀ j, j < i → stepCont (host j) suppress = true)
    (hp : (host i).primaryCreateOk = false) :
    ((createSectionPlanes host offsets suppress).2.filter
      (Event.isXYAt i)).length = 1 ∧
    Event.xyAttempt i (offsets.getD i 0) ∈
      (createSectionPlanes host offsets suppress).2 := by
  have hsplit := createSectionPlanes_split host offsets suppress i hi hbefore
  have htake : (offsets.take i).length = i := by
    rw [List.length_take]
    omega
  have hpre : (runLoop host offsets suppress 0
      (offsets.take i)).2.filter (Event.isXYAt i) = [] := by
    apply filter_isXYAt_eq_nil
    intro e he
    have hb := runLoop_event_bounds host offsets suppress (offsets.take i) 0 e he
    omega
  have hstepev := runStep_events_of_primary_fail (host i) i (offsets.getD i 0)
    (normalizedDistance offsets (offsets.getD i 0)) suppress hp
  cases hcont : stepCont (host i) suppress with
  | false =>
    rw [runLoop_cons_break host offsets suppress i (offsets.getD i 0)
      (offsets.drop (i + 1)) hcont, hstepev] at hsplit
    rw [hsplit]
    constructor
    · simp [List.filter_append, hpre, Event.isXYAt]
    · simp
  | true =>
    rw [runLoop_cons_cont host offsets suppress i (offsets.getD i 0)
      (offsets.drop (i + 1)) hcont, hstepev] at hsplit
    have hrest : (runLoop host offsets suppress (i + 1)
        (offsets.drop (i + 1))).2.filter (Event.isXYAt i) = [] := by
      apply filter_isXYAt_eq_nil
      intro e he
      have hb := runLoop_event_bounds host offsets suppress
        (offsets.drop (i + 1)) (i + 1) e he
      omega
    rw [hsplit]
    constructor
    · simp [List.filter_append, hpre, hrest, Event.isXYAt]
    · simp

/-- Witness for `fallback_attempted_once_with_raw_offset`: a run over the
Count-mode offsets for quantity 3 on a host whose primary method fails at
index 0. -/
theorem fallback_attempted_once_witness :
    0 < (computeOffsets .Count 3).length ∧
    (hostPrimaryFailAt0 0).primaryCreateOk = false ∧
    (((createSectionPlanes hostPrimaryFailAt0
        (computeOffsets .Count 3) false).2.filter
          (Event.isXYAt 0)).length = 1 ∧
     Event.xyAttempt 0 ((computeOffsets .Count 3).getD 0 0) ∈
       (createSectionPlanes hostPrimaryFailAt0 (computeOffsets .Count 3)
         false).2) := by
  have hi : 0 < (computeOffsets .Count 3).length := by
    decide
  exact ⟨hi, rfl,
    fallback_attempted_once_with_raw_offset hostPrimaryFailAt0
      (computeOffsets .Count 3) false 0 hi
      (fun j hj => absurd hj (Nat.not_lt_zero j)) rfl⟩

/-- C1, counterexample: the claim asserts that in Count mode, for every
quantity N > 1 and every span (start, end) with start ≤ end, the returned
sequence is strictly increasing.  This fails on the degenerate span (0, 0)
with N = 2: the precondition 0 ≤ 0 holds and the code returns [0, 0], which
is not strictly increasing. -/
theorem countOffsets_not_strict_on_pointlike_span :
    (0 : ℚ) ≤ 0 ∧
    countOffsets 0 0 2 = [0, 0] ∧
    ¬((countOffsets 0 0 2).getD 0 0 < (countOffsets 0 0 2).getD 1 0) := by
  have h : countOffsets 0 0 2 = [0, 0] := by
    simp [countOffsets, List.range_succ]
  refine ⟨le_refl 0, h, ?_⟩
  rw [h]
  simp

/-- C1 (amended): `countOffsets` in Count mode returns [0] for quantity 1
regardless of the span; for quantity N > 1 and span (start, end) with
start ≤ end it returns exactly N values with
offset[i] = start + i * (end - start) / (N - 1), so that offset[0] = start,
offset[N-1] = end, the spacing is the constant (end - start) / (N - 1), and
the sequence is strictly increasing provided start < end (for start = end
all offsets coincide). -/
theorem count_mode_offsets_spec (s e : ℚ) (N : ℕ) (hse : s ≤ e) :
    countOffsets s e 1 = [0] ∧
    (1 < N →
      (countOffsets s e N).length = N ∧
      (∀ i : ℕ, i < N →
        (countOffsets s e N).getD i 0 = s + (i : ℚ) * (e - s) / ((N : ℚ) - 1)) ∧
      (countOffsets s e N).getD 0 0 = s ∧
      (countOffsets s e N).getD (N - 1) 0 = e ∧
      (s < e → ∀ i : ℕ, i + 1 < N →
        (countOffsets s e N).getD i 0 < (countOffsets s e N).getD (i + 1) 0) ∧
      (∀ i : ℕ, i + 1 < N →
        (countOffsets s e N).getD (i + 1) 0 - (countOffsets s e N).getD i 0 =
          (e - s) / ((N : ℚ) - 1))) := by
  refine ⟨by simp [countOffsets], fun hN => ?_⟩
  have hN1 : N ≠ 1 := by omega
  have hNQ : (1 : ℚ) < (N : ℚ) := by exact_mod_cast hN
  have hden : (N : ℚ) - 1 ≠ 0 := by
    intro h0
    rw [sub_eq_zero] at h0
    rw [← h0] at hNQ
    exact lt_irrefl _ hNQ
  refine ⟨countOffsets_length s e N hN1,
    fun i hi => countOffsets_getD s e N i hN1 hi, ?_, ?_, ?_, ?_⟩
  · rw [countOffsets_getD s e N 0 hN1 (by omega)]
    simp
  · rw [countOffsets_getD s e N (N - 1) hN1 (by omega)]
    rw [Nat.cast_sub (by omega : 1 ≤ N), Nat.cast_one]
    field_simp
  · intro hlt i h1i
    rw [countOffsets_getD s e N i hN1 (by omega),
      countOffsets_getD s e N (i + 1) hN1 (by omega)]
    have hpos : 0 < (e - s) / ((N : ℚ) - 1) := div_pos (by linarith) (by linarith)
    push_cast
    rw [mul_div_assoc, mul_div_assoc]
    have hmul := mul_lt_mul_of_pos_right (lt_add_one (i : ℚ)) hpos
    linarith
  · intro i h1i
    rw [countOffsets_getD s e N (i + 1) hN1 (by omega),
      countOffsets_getD s e N i hN1 (by omega)]
    push_cast
    ring

/-- Witness for `count_mode_offsets_spec` at the hardcoded span (-10, 10)
and quantity 6. -/
theorem count_mode_offsets_spec_witness :
    ((-10 : ℚ) ≤ 10) ∧
    (countOffsets (-10) 10 1 = [0] ∧
    (1 < 6 →
      (countOffsets (-10) 10 6).length = 6 ∧
      (∀ i : ℕ, i < 6 →
        (countOffsets (-10) 10 6).getD i 0 =
          -10 + (i : ℚ) * (10 - -10) / ((6 : ℚ) - 1)) ∧
      (countOffsets (-10) 10 6).getD 0 0 = -10 ∧
      (countOffsets (-10) 10 6).getD (6 - 1) 0 = 10 ∧
      ((-10 : ℚ) < 10 → ∀ i : ℕ, i + 1 < 6 →
        (countOffsets (-10) 10 6).getD i 0 <
          (countOffsets (-10) 10 6).getD (i + 1) 0) ∧
      (∀ i : ℕ, i + 1 < 6 →
        (countOffsets (-10) 10 6).getD (i + 1) 0 -
          (countOffsets (-10) 10 6).getD i 0 = (10 - -10) / ((6 : ℚ) - 1)))) :=
  ⟨by norm_num, count_mode_offsets_spec (-10) 10 6 (by norm_num)⟩

/-- C7: in Distance mode, regardless of the spacing value entered,
`computeOffsets` returns exactly the fixed 6-element sequence starting at
-10.0 with constant step 3.33 = 333/100; its values are
[-10, -6.67, -3.34, -0.01, 3.32, 6.65] exactly. -/
theorem distance_mode_fixed_sequence (spacing : ℚ) :
    computeOffsets .Distance spacing =
      [-10, -667 / 100, -167 / 50, -1 / 100, 83 / 25, 133 / 20] ∧
    (computeOffsets .Distance spacing).getD 0 0 = -10 ∧
    List.Chain' (fun a b => b = a + 333 / 100)
      (computeOffsets .Distance spacing) := by
  have h : computeOffsets .Distance spacing = distanceOffsets := rfl
  have h2 : distanceOffsets =
      [-10, -667 / 100, -167 / 50, -1 / 100, 83 / 25, 133 / 20] := by
    simp [distanceOffsets, List.range_succ]
    norm_num
  rw [h, h2]
  refine ⟨rfl, rfl, ?_⟩
  simp only [List.chain'_cons, List.chain'_singleton, and_true]
  norm_num

/-- C10: the Distance-mode fallback sequence stops short of the hardcoded
span end: its last (and largest) offset is -10 + 5 * 3.33 = 6.65 = 133/20,
strictly less than 10, and no offset lies in the interval (6.65, 10]. -/
theorem distance_fallback_short_of_span_end :
    distanceOffsets.getLastD 0 = -10 + 5 * (333 / 100) ∧
    distanceOffsets.getLastD 0 = 133 / 20 ∧
    (133 / 20 : ℚ) < 10 ∧
    distanceOffsets.Forall (fun x => x ≤ 133 / 20) ∧
    distanceOffsets.Forall (fun x => ¬(133 / 20 < x ∧ x ≤ 10)) := by
  have h2 : distanceOffsets =
      [-10, -667 / 100, -167 / 50, -1 / 100, 83 / 25, 133 / 20] := by
    simp [distanceOffsets, List.range_succ]
    norm_num
  rw [h2]
  refine ⟨by norm_num, by norm_num, by norm_num, ?_, ?_⟩
  · simp only [List.Forall]
    norm_num
  · simp only [List.Forall]
    norm_num

/-- C4: under the spec's assumption that the suppression assignment is
infallible, the names of the created planes of any run are exactly
`Section_Plane_001 .. Section_Plane_00K` in order, where K is the number of
created planes — 1-based, zero-padded to three digits, with no gaps — even
when some planes were created by the fallback method. -/
theorem plane_names_contiguous (host : Host) (offsets : List ℚ)
    (suppress : Bool) (hs : ∀ i, (host i).primarySuppressOk = true) :
    (createSectionPlanes host offsets suppress).1.map Plane.name =
      (List.range
        (createSectionPlanes host offsets suppress).1.length).map
        (fun j => planeName (j + 1)) ∧
    planeName 1 = "Section_Plane_001" ∧
    planeName 12 = "Section_Plane_012" ∧
    planeName 123 = "Section_Plane_123" := by
  refine ⟨?_, by decide, by decide, by decide⟩
  have h := runLoop_names host offsets suppress hs offsets 0
  rw [createSectionPlanes, h, List.range'_eq_map_range, List.map_map]
  apply List.map_congr_left
  intro a _
  simp [Function.comp, Nat.add_comm]

/-- Witness for `plane_names_contiguous`: quantity-3 Count-mode run on a
host whose primary method fails at index 0, so the first plane is created
by the fallback and the numbering is still 001, 002, 003. -/
theorem plane_names_contiguous_witness :
    (∀ i, (hostPrimaryFailAt0 i).primarySuppressOk = true) ∧
    ((createSectionPlanes hostPrimaryFailAt0
        (computeOffsets .Count 3) false).1.map Plane.name =
      (List.range (createSectionPlanes hostPrimaryFailAt0
        (computeOffsets .Count 3) false).1.length).map
        (fun j => planeName (j + 1)) ∧
     planeName 1 = "Section_Plane_001" ∧
     planeName 12 = "Section_Plane_012" ∧
     planeName 123 = "Section_Plane_123") := by
  have hs : ∀ i, (hostPrimaryFailAt0 i).primarySuppressOk = true := by
    intro i
    by_cases h : i = 0 <;> simp [hostPrimaryFailAt0, h]
  exact ⟨hs, plane_names_contiguous hostPrimaryFailAt0
    (computeOffsets .Count 3) false hs⟩

/-- C5: when the suppression flag is true and the host's suppression
assignments are infallible (as the spec assumes), every created plane ends
up suppressed; when the flag is false, no created plane is suppressed. -/
theorem suppression_uniform (host : Host) (offsets : List ℚ) (suppress : Bool)
    (hs : suppress = true → ∀ i, (host i).primarySuppressOk = true ∧
      (host i).fallbackSuppressOk = true) :
    ∀ p ∈ (createSectionPlanes host offsets suppress).1,
      p.isSuppressed = suppress := by
  intro p hp
  obtain ⟨j, o, hmem⟩ := runLoop_plane_mem host offsets suppress offsets 0 p hp
  rcases runStep_plane_mem (host j) j o
    (normalizedDistance offsets o) suppress p hmem with h1 | h1
  · subst h1
    cases suppress with
    | false => simp
    | true => simp [(hs rfl j).1]
  · subst h1
    cases suppress with
    | false => simp
    | true => simp [(hs rfl j).2]

/-- Witness for `suppression_uniform`: with the flag set and an infallible
host, all planes of a quantity-3 Count-mode run are suppressed. -/
theorem suppression_uniform_witness :
    (true = true → ∀ i, (hostAllOk i).primarySuppressOk = true ∧
      (hostAllOk i).fallbackSuppressOk = true) ∧
    (∀ p ∈ (createSectionPlanes hostAllOk (computeOffsets .Count 3) true).1,
      p.isSuppressed = true) :=
  ⟨fun _ i => ⟨rfl, rfl⟩,
   suppression_uniform hostAllOk (computeOffsets .Count 3) true
     (fun _ i => ⟨rfl, rfl⟩)⟩

/-- C6: every primary distance-on-path attempt of a run over a computed
offset sequence passes the normalized parameter
t = clamp((offset - offsets[0]) / (offsets[-1] - offsets[0]), 0, 1) when the
sequence has more than one element, and t = 0.5 when it has exactly one
element. -/
theorem primary_parameter_normalized (host : Host) (mode : DistributionMode)
    (quantity : ℚ) (suppress : Bool) (i : ℕ) (t : ℚ)
    (h : Event.pathAttempt i t ∈
      (createSectionPlanes host (computeOffsets mode quantity) suppress).2) :
    t = if 1 < (computeOffsets mode quantity).length
        then max 0 (min 1
          (((computeOffsets mode quantity).getD i 0 -
              (computeOffsets mode quantity).getD 0 0) /
           ((computeOffsets mode quantity).getD
              ((computeOffsets mode quantity).length - 1) 0 -
            (computeOffsets mode quantity).getD 0 0)))
        else 1 / 2 := by
  rcases runLoop_event_shape host (computeOffsets mode quantity) suppress
    (computeOffsets mode quantity) 0 rfl (Event.pathAttempt i t) h with h1 | h1
  · have ht : t = normalizedDistance (computeOffsets mode quantity)
        ((computeOffsets mode quantity).getD i 0) := by
      have h2 := h1
      simp only [Event.idx] at h2
      exact (Event.pathAttempt.injEq .. ).mp h2 |>.2
    rw [ht]
    simp only [normalizedDistance, headD_eq_getD_zero, getLastD_eq_getD_last]
    by_cases hlen : 1 < (computeOffsets mode quantity).length
    · simp only [if_pos hlen]
    · simp only [if_neg hlen]
      norm_num
  · exact absurd h1 (by simp)

/-- Witness for `primary_parameter_normalized`: in the quantity-3 Count-mode
run on the all-succeeding host, the attempt at index 1 carries t = 1/2, the
clamped normalized position of offset 0 in the span (-10, 10). -/
theorem primary_parameter_normalized_witness :
    Event.pathAttempt 1 (1 / 2) ∈
      (createSectionPlanes hostAllOk (computeOffsets .Count 3) false).2 ∧
    (1 / 2 : ℚ) = if 1 < (computeOffsets .Count 3).length
        then max 0 (min 1
          (((computeOffsets .Count 3).getD 1 0 -
              (computeOffsets .Count 3).getD 0 0) /
           ((computeOffsets .Count 3).getD
              ((computeOffsets .Count 3).length - 1) 0 -
            (computeOffsets .Count 3).getD 0 0)))
        else 1 / 2 := by
  have htr : (createSectionPlanes hostAllOk (computeOffsets .Count 3)
      false).2 = [Event.pathAttempt 0 0, Event.pathAttempt 1 (1 / 2),
        Event.pathAttempt 2 1] := by
    simp [createSectionPlanes, computeOffsets, countOffsets, pyInt,
      List.range_succ, runLoop, runStep, runFallback, hostAllOk,
      normalizedDistance, stepCont]
    norm_num
  have hmem : Event.pathAttempt 1 (1 / 2) ∈
      (createSectionPlanes hostAllOk (computeOffsets .Count 3) false).2 := by
    rw [htr]
    simp
  exact ⟨hmem,
    primary_parameter_normalized hostAllOk .Count 3 false 1 (1 / 2) hmem⟩

/-- C8: an invalid selection (no body or no axis) makes the handler return
right after the parameter-summary message, before any document mutation and
with no creation attempt; a missing active design makes it return with the
"No active Fusion design" message, again with no plane created and no
creation attempt. -/
theorem invalid_selection_and_no_design_abort (env : ExecEnv) :
    ((env.bodiesCount = 0 ∨ env.hasAxis = false) →
      executeNotify env = ([paramSummary env], [], [])) ∧
    (env.bodiesCount ≠ 0 → env.hasAxis = true → env.hasDesign = false →
      executeNotify env =
        ([paramSummary env, "No active Fusion design"], [], [])) := by
  constructor
  · intro h
    rcases h with h | h <;> simp [executeNotify, h]
  · intro h1 h2 h3
    simp [executeNotify, h1, h2, h3]

/-- Witness for `invalid_selection_and_no_design_abort`: one environment
with nothing selected, one with a selection but no active design. -/
theorem invalid_selection_and_no_design_abort_witness :
    (envNoSelection.bodiesCount = 0 ∨ envNoSelection.hasAxis = false) ∧
    executeNotify envNoSelection = ([paramSummary envNoSelection], [], []) ∧
    envNoDesign.bodiesCount ≠ 0 ∧ envNoDesign.hasAxis = true ∧
    envNoDesign.hasDesign = false ∧
    executeNotify envNoDesign =
      ([paramSummary envNoDesign, "No active Fusion design"], [], []) :=
  ⟨Or.inl rfl,
   (invalid_selection_and_no_design_abort envNoSelection).1 (Or.inl rfl),
   by decide, rfl, rfl,
   (invalid_selection_and_no_design_abort envNoDesign).2 (by decide) rfl rfl⟩

/-- C9 (implicit): in the primary branch the plane is appended before the
suppression assignment, so if at some index the primary creation succeeds,
the suppression flag is set, its assignment raises, and the fallback
creation succeeds, then that single index contributes TWO planes to the
result — the primary-created one (left unsuppressed) and the fallback one —
both bearing the same name `planeName (i+1)`. -/
theorem suppression_failure_duplicates_offset (host : Host) (offsets : List ℚ)
    (i : ℕ) (hi : i < offsets.length)
    (hbefore : ∀ j, j < i → stepCont (host j) true = true)
    (hpc : (host i).primaryCreateOk = true)
    (hps : (host i).primarySuppressOk = false)
    (hfc : (host i).fallbackCreateOk = true) :
    (createSectionPlanes host offsets true).1 =
      (runLoop host offsets true 0 (offsets.take i)).1 ++
        ⟨planeName (i + 1), .distanceOnPath,
          normalizedDistance offsets (offsets.getD i 0), false⟩ ::
        ⟨planeName (i + 1), .xyPlaneOffset, offsets.getD i 0,
          (host i).fallbackSuppressOk⟩ ::
        (if (host i).fallbackSuppressOk = true
         then (runLoop host offsets true (i + 1) (offsets.drop (i + 1))).1
         else []) := by
  have hsplit := createSectionPlanes_split host offsets true i hi hbefore
  have hstep := runStep_of_primary_suppress_fail (host i) i (offsets.getD i 0)
    (normalizedDistance offsets (offsets.getD i 0)) hpc hps hfc
  have hcont : stepCont (host i) true = (host i).fallbackSuppressOk := by
    rw [← runStep_cont_eq (host i) i (offsets.getD i 0)
      (normalizedDistance offsets (offsets.getD i 0)) true, hstep]
  cases hfs : (host i).fallbackSuppressOk with
  | true =>
    rw [runLoop_cons_cont host offsets true i (offsets.getD i 0)
      (offsets.drop (i + 1)) (by rw [hcont, hfs]), hstep] at hsplit
    rw [hsplit]
    simp [hfs]
  | false =>
    rw [runLoop_cons_break host offsets true i (offsets.getD i 0)
      (offsets.drop (i + 1)) (by rw [hcont, hfs]), hstep] at hsplit
    rw [hsplit]
    simp [hfs]

/-- Witness for `suppression_failure_duplicates_offset`: on
`hostSuppressFailAt0`, index 0 of the quantity-3 Count-mode run yields two
planes both named Section_Plane_001. -/
theorem suppression_failure_duplicates_offset_witness :
    0 < (computeOffsets .Count 3).length ∧
    (hostSuppressFailAt0 0).primaryCreateOk = true ∧
    (hostSuppressFailAt0 0).primarySuppressOk = false ∧
    (hostSuppressFailAt0 0).fallbackCreateOk = true ∧
    (createSectionPlanes hostSuppressFailAt0 (computeOffsets .Count 3)
        true).1 =
      (runLoop hostSuppressFailAt0 (computeOffsets .Count 3) true 0
        ((computeOffsets .Count 3).take 0)).1 ++
        ⟨planeName 1, .distanceOnPath,
          normalizedDistance (computeOffsets .Count 3)
            ((computeOffsets .Count 3).getD 0 0), false⟩ ::
        ⟨planeName 1, .xyPlaneOffset, (computeOffsets .Count 3).getD 0 0,
          (hostSuppressFailAt0 0).fallbackSuppressOk⟩ ::
        (if (hostSuppressFailAt0 0).fallbackSuppressOk = true
         then (runLoop hostSuppressFailAt0 (computeOffsets .Count 3) true 1
           ((computeOffsets .Count 3).drop 1)).1
         else []) := by
  have hi : 0 < (computeOffsets .Count 3).length := by
    decide
  exact ⟨hi, rfl, rfl, rfl,
    suppression_failure_duplicates_offset hostSuppressFailAt0
      (computeOffsets .Count 3) 0 hi
      (fun j hj => absurd hj (Nat.not_lt_zero j)) rfl rfl rfl⟩

end CrossSection
